import Mathlib

/-!
Formal model of the FRACTALIS Julia-set renderer.

The repository consists of a Rust/WebAssembly rendering kernel exposed to
JavaScript through the single function `render` (declared in the wasm-bindgen
TypeScript interface), and a JavaScript control shell (`app.js`) that owns the
session state, throttles re-renders, and builds the argument list for every
kernel call.

The Rust source of the kernel (`rust-fractal/src/lib.rs`) is not part of the
available sources; only its exported declaration and its documented behaviour
are.  The kernel is therefore modelled here from the specification, with the
scalar field taken to be `ℚ` and the transcendental floating-point primitives
(cos, sin, cosh, sinh, powf and the constant pi) abstracted into a `FloatOps`
parameter, so that every theorem quantifies over an arbitrary implementation of
those primitives.  The control shell is modelled directly from `app.js`.
-/

/-- Modelled from the spec: the floating-point transcendental primitives used
by the kernel (the Rust kernel source is not available).  The structural parts
of the kernel (validation, looping, branching, buffer assembly) are defined
below over `ℚ`; only these irrational-valued primitives are abstracted. -/
structure FloatOps where
  cos : ℚ → ℚ
  sin : ℚ → ℚ
  cosh : ℚ → ℚ
  sinh : ℚ → ℚ
  powf : ℚ → ℚ → ℚ
  pi : ℚ

/-- The argument list of the exported kernel function `render`, exactly as in
the wasm-bindgen declaration: `render(width, height, c_re, c_im, zoom, x_off,
y_off, rotation_deg, max_iter, fractal_type, colors_flat, bg_r, bg_g, bg_b,
fade_black, alpha_gamma, transparent)`. -/
structure RenderRequest where
  width : ℤ
  height : ℤ
  c_re : ℚ
  c_im : ℚ
  zoom : ℚ
  x_off : ℚ
  y_off : ℚ
  rotation_deg : ℚ
  max_iter : ℕ
  fractal_type : ℤ
  colors_flat : List ℕ
  bg_r : ℕ
  bg_g : ℕ
  bg_b : ℕ
  fade_black : ℚ
  alpha_gamma : ℚ
  transparent : Bool
deriving DecidableEq

/-- Result of the escape-time iteration for one pixel. -/
structure EscapeResult where
  iterationsCompleted : ℕ
  escaped : Bool
deriving DecidableEq

/-- Squared magnitude of a complex number represented as a pair. -/
def magSq (z : ℚ × ℚ) : ℚ := z.1 * z.1 + z.2 * z.2

/-- Complex multiplication on pairs. -/
def cmul (a b : ℚ × ℚ) : ℚ × ℚ := (a.1 * b.1 - a.2 * b.2, a.1 * b.2 + a.2 * b.1)

/-- Complex addition on pairs. -/
def cadd (a b : ℚ × ℚ) : ℚ × ℚ := (a.1 + b.1, a.2 + b.2)

/-- Complex square. -/
def csq (z : ℚ × ℚ) : ℚ × ℚ := cmul z z

/-- Complex cosine, `cos (x + i y) = cos x cosh y - i sin x sinh y`, expressed
through the abstract transcendental primitives. -/
def ccos (ops : FloatOps) (z : ℚ × ℚ) : ℚ × ℚ :=
  (ops.cos z.1 * ops.cosh z.2, -(ops.sin z.1 * ops.sinh z.2))

/-- Modelled from the spec: the per-variant update rule of the escape-time
iterator (§4.2).  `fractal_type`: 0 = Standard `z² + c`, 1 = Burning Ship
`(|Re z| + i|Im z|)² + c`, 2 = Tricorn `conj(z)² + c`, 3 = Celtic
`|Re (z² + c)| + i Im (z² + c)`, 4 = Cosine `c · cos z`. -/
def variantStep (ops : FloatOps) (fractal_type : ℤ) (c z : ℚ × ℚ) : ℚ × ℚ :=
  if fractal_type = 0 then cadd (csq z) c
  else if fractal_type = 1 then cadd (csq (|z.1|, |z.2|)) c
  else if fractal_type = 2 then cadd (csq (z.1, -z.2)) c
  else if fractal_type = 3 then
    let w := cadd (csq z) c
    (|w.1|, w.2)
  else cmul c (ccos ops z)

/-- Modelled from the spec: the escape-time loop (§4.2).  The escape test
`|z| > 2` is evaluated as `magSq z > 4` after each update; `fuel` is the
remaining iteration budget and `done` the number of updates already performed. -/
def escapeAux (step : ℚ × ℚ → ℚ × ℚ) : ℕ → ℚ × ℚ → ℕ → EscapeResult
  | 0, _, done => ⟨done, false⟩
  | fuel + 1, z, done =>
    let z' := step z
    if 4 < magSq z' then ⟨done + 1, true⟩
    else escapeAux step fuel z' (done + 1)

/-- Modelled from the spec: run the escape-time loop from the initial sample
with the hard iteration cap `max_iter`. -/
def escapeTime (step : ℚ × ℚ → ℚ × ℚ) (max_iter : ℕ) (z0 : ℚ × ℚ) : EscapeResult :=
  escapeAux step max_iter z0 0

/-- Modelled from the spec: the minimum positive zoom used to clamp a
degenerate `zoom ≤ 0` (§4.1, §7 DegenerateGeometry); the spec fixes only that
it is a small positive epsilon. -/
def MIN_ZOOM : ℚ := 1 / 1000000000

/-- Modelled from the spec: degenerate zoom is clamped to `MIN_ZOOM` instead of
failing. -/
def effectiveZoom (zoom : ℚ) : ℚ := if zoom ≤ 0 then MIN_ZOOM else zoom

/-- Modelled from the spec: the coordinate mapper (§4.1).  Pixel coordinates
are normalized symmetrically about the canvas center with a common per-axis
scale fixed by the shorter axis, divided by the (clamped) zoom, rotated by
`rotation_deg` converted to radians, then translated by the pan offset. -/
def mapPixel (ops : FloatOps) (req : RenderRequest) (x y : ℕ) : ℚ × ℚ :=
  let w : ℚ := (req.width : ℚ)
  let h : ℚ := (req.height : ℚ)
  let scale : ℚ := 2 / min w h
  let z := effectiveZoom req.zoom
  let nx : ℚ := ((x : ℚ) - w / 2) * scale / z
  let ny : ℚ := ((y : ℚ) - h / 2) * scale / z
  let θ : ℚ := req.rotation_deg * ops.pi / 180
  (nx * ops.cos θ - ny * ops.sin θ + req.x_off,
   nx * ops.sin θ + ny * ops.cos θ + req.y_off)

/-- Clamp a rational to `[0, 1]`. -/
def clamp01 (t : ℚ) : ℚ := min (max t 0) 1

/-- Truncate a rational channel value to an integer and clamp it to `[0, 255]`. -/
def byteOf (v : ℚ) : ℕ := (min (max ⌊v⌋ 0) 255).toNat

/-- Modelled from the spec: piecewise-linear sampling of one channel
(`ch` = 0, 1, 2 for R, G, B) of the 5-stop gradient at position `t` (§4.3).
Stop `i` spans `t ∈ [i/4, (i+1)/4]`; within a segment the channel is
interpolated linearly between consecutive stops. -/
def sampleChannel (colors : List ℕ) (t : ℚ) (ch : ℕ) : ℚ :=
  let pos : ℚ := clamp01 t * 4
  let i : ℕ := min (⌊pos⌋).toNat 3
  let frac : ℚ := pos - (i : ℚ)
  let a : ℚ := (colors.getD (i * 3 + ch) 0 : ℕ)
  let b : ℚ := (colors.getD ((i + 1) * 3 + ch) 0 : ℕ)
  a + (b - a) * frac

/-- Modelled from the spec: the fade control is mapped into a blend factor in
`[0, 1]` (§4.3 leaves the exact scale to the implementation; the UI slider is
an integer scale, modelled here as a division by 100 followed by clamping). -/
def fadeFactor (fade : ℚ) : ℚ := clamp01 (fade / 100)

/-- Modelled from the spec: gradient sample of channel `ch` after the fade
blend toward black (§4.3): `gradient · (1 - fadeFactor)`. -/
def fadedChannel (req : RenderRequest) (iters : ℕ) (ch : ℕ) : ℚ :=
  let t : ℚ := clamp01 ((iters : ℚ) / (req.max_iter : ℚ))
  sampleChannel req.colors_flat t ch * (1 - fadeFactor req.fade_black)

/-- Modelled from the spec: the gamma stage (§4.3): normalize the channel to
`[0, 1]`, raise it to the power `1 / alpha_gamma`, and rescale to `[0, 255]`. -/
def gammaChannel (ops : FloatOps) (req : RenderRequest) (v : ℚ) : ℚ :=
  ops.powf (v / 255) (1 / req.alpha_gamma) * 255

/-- Modelled from the spec: the RGBA quadruplet of an escaped (exterior) pixel:
gradient sample, fade, gamma, and an always-opaque alpha of 255. -/
def escapedPixel (ops : FloatOps) (req : RenderRequest) (iters : ℕ) : List ℕ :=
  [byteOf (gammaChannel ops req (fadedChannel req iters 0)),
   byteOf (gammaChannel ops req (fadedChannel req iters 1)),
   byteOf (gammaChannel ops req (fadedChannel req iters 2)),
   255]

/-- Modelled from the spec: the RGBA quadruplet of an interior pixel: the
background color, with alpha 0 exactly when transparency is requested (§4.3). -/
def interiorPixel (req : RenderRequest) : List ℕ :=
  [min req.bg_r 255, min req.bg_g 255, min req.bg_b 255,
   if req.transparent then 0 else 255]

/-- Modelled from the spec: the full per-pixel pipeline — coordinate mapping,
escape-time iteration for the selected variant, then color composition. -/
def renderPixel (ops : FloatOps) (req : RenderRequest) (x y : ℕ) : List ℕ :=
  let res := escapeTime (variantStep ops req.fractal_type (req.c_re, req.c_im))
    req.max_iter (mapPixel ops req x y)
  if res.escaped then escapedPixel ops req res.iterationsCompleted
  else interiorPixel req

/-- Modelled from the spec: the exported kernel entry point.  Input validation
(§7) rejects non-positive dimensions, a gradient whose flat length is not 15
bytes, and a variant selector outside 0–4, before any per-pixel work; a valid
request yields the row-major RGBA buffer (y outer, x inner). -/
def render (ops : FloatOps) (req : RenderRequest) : Option (List ℕ) :=
  if req.width ≤ 0 ∨ req.height ≤ 0 then none
  else if req.colors_flat.length ≠ 15 then none
  else if req.fractal_type < 0 ∨ 4 < req.fractal_type then none
  else
    some ((List.range req.height.toNat).flatMap fun y =>
      (List.range req.width.toNat).flatMap fun x => renderPixel ops req x y)

/-- The escaped-pixel quadruplet with the gamma stage omitted, used to state
that `alpha_gamma = 1` is a no-op. -/
def escapedPixelNoGamma (req : RenderRequest) (iters : ℕ) : List ℕ :=
  [byteOf (fadedChannel req iters 0),
   byteOf (fadedChannel req iters 1),
   byteOf (fadedChannel req iters 2),
   255]

/-- The per-pixel pipeline with the gamma stage omitted. -/
def renderPixelNoGamma (ops : FloatOps) (req : RenderRequest) (x y : ℕ) : List ℕ :=
  let res := escapeTime (variantStep ops req.fractal_type (req.c_re, req.c_im))
    req.max_iter (mapPixel ops req x y)
  if res.escaped then escapedPixelNoGamma req res.iterationsCompleted
  else interiorPixel req

/-- The kernel with the gamma stage omitted. -/
def renderNoGamma (ops : FloatOps) (req : RenderRequest) : Option (List ℕ) :=
  if req.width ≤ 0 ∨ req.height ≤ 0 then none
  else if req.colors_flat.length ≠ 15 then none
  else if req.fractal_type < 0 ∨ 4 < req.fractal_type then none
  else
    some ((List.range req.height.toNat).flatMap fun y =>
      (List.range req.width.toNat).flatMap fun x => renderPixelNoGamma ops req x y)

/-- A concrete instantiation of the abstract floating-point primitives, used
only to evaluate the model at concrete inputs. -/
def testOps : FloatOps where
  cos := fun _ => 1
  sin := fun _ => 0
  cosh := fun _ => 1
  sinh := fun _ => 0
  powf := fun x _ => x
  pi := 355 / 113

/-- State of the control shell's render scheduler, from `app.js`: the
`wasmLoaded`, `renderQueued` and `isRendering` module-level flags, plus
whether an animation-frame callback for `doRender` is currently pending. -/
structure ShellState where
  wasmLoaded : Bool
  renderQueued : Bool
  isRendering : Bool
  rafScheduled : Bool
deriving DecidableEq

/-- `triggerRender` from `app.js`: return early unless the WASM module is
loaded; drop the trigger when a render is already queued; otherwise mark it
queued and schedule a `doRender` animation-frame callback. -/
def triggerRender (s : ShellState) : ShellState :=
  if !s.wasmLoaded then s
  else if s.renderQueued then s
  else { s with renderQueued := true, rafScheduled := true }

/-- Events observable at the shell's render scheduler: a call to
`triggerRender`; the firing of a pending animation frame, which runs the entry
of `doRender` up to (and including) the decision whether to invoke the kernel;
and the completion of a kernel call, which runs the `finally` block of
`doRender`. -/
inductive ShellEvent
  | trigger
  | frame
  | finish
deriving DecidableEq

/-- One scheduler step, from `app.js`; the returned flag is true exactly when
the step invokes the kernel `render`.  A firing frame runs `doRender`: clear
`renderQueued`; if a render is already in progress, re-set `renderQueued` and
return without touching the kernel; otherwise set `isRendering` and invoke the
kernel.  `finish` models the `finally` block clearing `isRendering`. -/
def shellStep (s : ShellState) : ShellEvent → ShellState × Bool
  | .trigger => (triggerRender s, false)
  | .frame =>
    if s.rafScheduled then
      let s1 : ShellState := { s with rafScheduled := false, renderQueued := false }
      if s1.isRendering then ({ s1 with renderQueued := true }, false)
      else ({ s1 with isRendering := true }, true)
    else (s, false)
  | .finish => ({ s with isRendering := false }, false)

/-- Run a sequence of scheduler events, counting kernel render invocations. -/
def runEvents : ShellState → List ShellEvent → ShellState × ℕ
  | s, [] => (s, 0)
  | s, e :: es =>
    let p := shellStep s e
    let q := runEvents p.1 es
    (q.1, (if p.2 then 1 else 0) + q.2)

/-- `hexToRgb` from `app.js`, applied to the numeric value parsed from the
hex color string. -/
def hexToRgb (n : ℕ) : ℕ × ℕ × ℕ :=
  ((n >>> 16) &&& 255, (n >>> 8) &&& 255, n &&& 255)

/-- The fields of `STATE` in `app.js` that flow into kernel calls; colors are
the numeric values of the 5 hex gradient stops. -/
structure AppState where
  cRe : ℚ
  cIm : ℚ
  zoom : ℚ
  xOff : ℚ
  yOff : ℚ
  rotation : ℚ
  fractalType : ℤ
  colors : List ℕ
  bgColor : ℕ
  transparent : Bool
  fade : ℚ
deriving DecidableEq

/-- One iteration of the gradient-flattening `forEach` in `doRender` and
`exportImage`: write the R, G, B bytes of stop `i` at offsets `3i`, `3i+1`,
`3i+2` (an out-of-range index writes nothing, as for a `Uint8Array`). -/
def writeStop (arr : List ℕ) (i hx : ℕ) : List ℕ :=
  let rgb := hexToRgb hx
  ((arr.set (i * 3) rgb.1).set (i * 3 + 1) rgb.2.1).set (i * 3 + 2) rgb.2.2

/-- The gradient flattening from `app.js`: allocate `new Uint8Array(15)` and
write each stop's three channels in order. -/
def flattenColors (colors : List ℕ) : List ℕ :=
  colors.enum.foldl (fun arr p => writeStop arr p.1 p.2) (List.replicate 15 0)

/-- The kernel argument list built by `doRender` in `app.js` for a preview
render of size `w × h`: `maxIter` is the hard-coded literal 120 and the gamma
argument the literal 1.0. -/
def previewRequest (st : AppState) (w h : ℤ) : RenderRequest :=
  { width := w, height := h, c_re := st.cRe, c_im := st.cIm, zoom := st.zoom,
    x_off := st.xOff, y_off := st.yOff, rotation_deg := st.rotation,
    max_iter := 120, fractal_type := st.fractalType,
    colors_flat := flattenColors st.colors,
    bg_r := (hexToRgb st.bgColor).1, bg_g := (hexToRgb st.bgColor).2.1,
    bg_b := (hexToRgb st.bgColor).2.2,
    fade_black := st.fade, alpha_gamma := 1, transparent := st.transparent }

/-- The kernel argument list built by `exportImage` in `app.js` for an export
render of size `w × h`: `maxIter` is the hard-coded literal 300 and the gamma
argument the literal 1.0. -/
def exportRequest (st : AppState) (w h : ℤ) : RenderRequest :=
  { width := w, height := h, c_re := st.cRe, c_im := st.cIm, zoom := st.zoom,
    x_off := st.xOff, y_off := st.yOff, rotation_deg := st.rotation,
    max_iter := 300, fractal_type := st.fractalType,
    colors_flat := flattenColors st.colors,
    bg_r := (hexToRgb st.bgColor).1, bg_g := (hexToRgb st.bgColor).2.1,
    bg_b := (hexToRgb st.bgColor).2.2,
    fade_black := st.fade, alpha_gamma := 1, transparent := st.transparent }

/-- A 15-byte gradient used for concrete evaluations (black, navy, blue,
sky blue, white). -/
def gradC : List ℕ := [0, 0, 0, 0, 0, 136, 0, 0, 255, 0, 136, 255, 255, 255, 255]

/-- A concrete valid request: 2×1 canvas, Standard variant, c = 10, so every
sample escapes on the first update. -/
def reqA : RenderRequest :=
  { width := 2, height := 1, c_re := 10, c_im := 0, zoom := 1, x_off := 0,
    y_off := 0, rotation_deg := 0, max_iter := 2, fractal_type := 0,
    colors_flat := gradC, bg_r := 7, bg_g := 8, bg_b := 9, fade_black := 0,
    alpha_gamma := 1, transparent := false }

/-- A concrete valid request whose single sample stays bounded (interior):
1×1 canvas, Standard variant, c = 0, one iteration, transparent background. -/
def reqB : RenderRequest :=
  { width := 1, height := 1, c_re := 0, c_im := 0, zoom := 1, x_off := 0,
    y_off := 0, rotation_deg := 0, max_iter := 1, fractal_type := 0,
    colors_flat := gradC, bg_r := 7, bg_g := 8, bg_b := 9, fade_black := 0,
    alpha_gamma := 1, transparent := true }

theorem renderPixel_length (ops : FloatOps) (req : RenderRequest) (x y : ℕ) :
    (renderPixel ops req x y).length = 4 := by
  unfold renderPixel
  dsimp only
  split <;> rfl

theorem flatMap_length_const {α β : Type} (f : β → List α) (c : ℕ) :
    ∀ l : List β, (∀ b ∈ l, (f b).length = c) → (l.flatMap f).length = l.length * c := by
  intro l
  induction l with
  | nil => intro _; simp
  | cons b l ih =>
    intro h
    simp only [List.flatMap_cons, List.length_append, List.length_cons]
    rw [h b (List.mem_cons_self b l), ih fun a ha => h a (List.mem_cons_of_mem _ ha)]
    ring

theorem flatMap_drop_const {α β : Type} (f : β → List α) (c : ℕ) :
    ∀ (l : List β) (i : ℕ), (∀ b ∈ l, (f b).length = c) →
      (l.flatMap f).drop (i * c) = (l.drop i).flatMap f := by
  intro l
  induction l with
  | nil => intro i _; simp
  | cons b l ih =>
    intro i h
    cases i with
    | zero => simp
    | succ j =>
      have hb : (f b).length = c := h b (List.mem_cons_self b l)
      simp only [List.flatMap_cons, List.drop_succ_cons]
      have harith : (j + 1) * c = (f b).length + j * c := by rw [hb]; ring
      rw [harith, List.drop_append, ih j fun a ha => h a (List.mem_cons_of_mem _ ha)]

theorem flatMap_chunk {α β : Type} (f : β → List α) (c : ℕ) (l : List β) (i : ℕ)
    (d : β) (hi : i < l.length) (h : ∀ b ∈ l, (f b).length = c) :
    ((l.flatMap f).drop (i * c)).take c = f (l.getD i d) := by
  rw [flatMap_drop_const f c l i h]
  have hdrop : l.drop i = l.getD i d :: l.drop (i + 1) := by
    rw [List.getD_eq_getElem l d hi]
    exact List.drop_eq_getElem_cons hi
  rw [hdrop, List.flatMap_cons]
  have hlen : (f (l.getD i d)).length = c := by
    apply h
    rw [List.getD_eq_getElem l d hi]
    exact List.getElem_mem hi
  rw [← hlen]
  exact List.take_left _ _

theorem range_flatMap_chunk {α : Type} (f : ℕ → List α) (c n i : ℕ)
    (hi : i < n) (h : ∀ j, (f j).length = c) :
    (((List.range n).flatMap f).drop (i * c)).take c = f i := by
  have hc := flatMap_chunk f c (List.range n) i 0 (by simpa using hi) fun b _ => h b
  rwa [List.getD_eq_getElem _ 0 (by simpa using hi), List.getElem_range] at hc

theorem range_flatMap2_chunk {α : Type} (f : ℕ → ℕ → List α) (c w h x y : ℕ)
    (hx : x < w) (hy : y < h) (hf : ∀ a b, (f a b).length = c) :
    (((List.range h).flatMap fun j => (List.range w).flatMap fun i => f i j).drop
      ((y * w + x) * c)).take c = f x y := by
  set buf := (List.range h).flatMap fun j => (List.range w).flatMap fun i => f i j with hbuf
  have hrowlen : ∀ j, ((List.range w).flatMap fun i => f i j).length = w * c := by
    intro j
    have hl := flatMap_length_const (fun i => f i j) c (List.range w) fun b _ => hf b j
    simpa using hl
  have hrow : ((buf.drop (y * (w * c))).take (w * c)) = (List.range w).flatMap fun i => f i y :=
    range_flatMap_chunk _ (w * c) h y hy hrowlen
  have hinner : ((((List.range w).flatMap fun i => f i y).drop (x * c)).take c) = f x y :=
    range_flatMap_chunk _ c w x hx fun j => hf j y
  rw [← hrow] at hinner
  rw [List.drop_take] at hinner
  rw [List.take_take] at hinner
  rw [List.drop_drop] at hinner
  have harith : y * (w * c) + x * c = (y * w + x) * c := by ring
  have hmin : min c (w * c - x * c) = c := by
    have hxc : c + x * c ≤ w * c := by
      have hx1 := Nat.succ_le_of_lt hx
      calc c + x * c = (x + 1) * c := by ring
        _ ≤ w * c := Nat.mul_le_mul_right c hx1
    omega
  rwa [harith, hmin] at hinner

/-- C1: for every valid render request (positive dimensions, 15-byte gradient,
variant in 0..4), `render` returns a buffer of length exactly
`width · height · 4`, laid out as one RGBA quadruplet per pixel in row-major
order (y outer, x inner): the quadruplet of pixel `(x, y)` starts at offset
`(y · width + x) · 4`. -/
theorem render_length_and_layout (ops : FloatOps) (req : RenderRequest)
    (hw : 0 < req.width) (hh : 0 < req.height) (hc : req.colors_flat.length = 15)
    (hv0 : 0 ≤ req.fractal_type) (hv4 : req.fractal_type ≤ 4) :
    render ops req ≠ none ∧
    ((render ops req).getD []).length = req.width.toNat * req.height.toNat * 4 ∧
    ∀ x y : ℕ, x < req.width.toNat → y < req.height.toNat →
      (((render ops req).getD []).drop ((y * req.width.toNat + x) * 4)).take 4 =
        renderPixel ops req x y := by
  have hsome : render ops req =
      some ((List.range req.height.toNat).flatMap fun y =>
        (List.range req.width.toNat).flatMap fun x => renderPixel ops req x y) := by
    unfold render
    rw [if_neg (by omega), if_neg (by simp [hc]), if_neg (by omega)]
  rw [hsome]
  refine ⟨by simp, ?_, ?_⟩
  · simp only [Option.getD_some]
    have hrow : ∀ j, ((List.range req.width.toNat).flatMap fun x =>
        renderPixel ops req x j).length = req.width.toNat * 4 := by
      intro j
      have hl := flatMap_length_const (fun x => renderPixel ops req x j) 4
        (List.range req.width.toNat) fun b _ => renderPixel_length ops req b j
      simpa using hl
    have ho := flatMap_length_const
      (fun j => (List.range req.width.toNat).flatMap fun x => renderPixel ops req x j)
      (req.width.toNat * 4) (List.range req.height.toNat) fun b _ => hrow b
    simp only [List.length_range] at ho
    rw [ho]
    ring
  · intro x y hx hy
    simp only [Option.getD_some]
    exact range_flatMap2_chunk (fun i j => renderPixel ops req i j) 4
      req.width.toNat req.height.toNat x y hx hy
      (fun a b => renderPixel_length ops req a b)

/-- Witness for C1: the theorem applied to the concrete valid request `reqA`
(2×1 canvas). -/
theorem render_length_and_layout_witness :
    render testOps reqA ≠ none ∧
    ((render testOps reqA).getD []).length = 8 ∧
    (((render testOps reqA).getD []).drop 4).take 4 = renderPixel testOps reqA 1 0 := by
  have h := render_length_and_layout testOps reqA (by decide) (by decide) (by decide)
    (by decide) (by decide)
  refine ⟨h.1, ?_, ?_⟩
  · have hl := h.2.1
    norm_num [reqA] at hl
    exact hl
  · have hp := h.2.2 1 0 (by decide) (by decide)
    norm_num [reqA] at hp
    exact hp

/-- C2: a pixel whose escape-time result is `escaped = false` (interior) gets
the background color with alpha 0 exactly when `transparent` is set and 255
otherwise; a pixel with `escaped = true` gets alpha 255 regardless of the
transparency flag. -/
theorem interior_and_escaped_alpha (ops : FloatOps) (req : RenderRequest) (x y : ℕ)
    (hr : req.bg_r ≤ 255) (hg : req.bg_g ≤ 255) (hb : req.bg_b ≤ 255) :
    ((escapeTime (variantStep ops req.fractal_type (req.c_re, req.c_im)) req.max_iter
        (mapPixel ops req x y)).escaped = false →
      renderPixel ops req x y =
        [req.bg_r, req.bg_g, req.bg_b, if req.transparent then 0 else 255]) ∧
    ((escapeTime (variantStep ops req.fractal_type (req.c_re, req.c_im)) req.max_iter
        (mapPixel ops req x y)).escaped = true →
      (renderPixel ops req x y).getD 3 0 = 255) := by
  constructor
  · intro h
    simp [renderPixel, h, interiorPixel, Nat.min_eq_left hr, Nat.min_eq_left hg,
      Nat.min_eq_left hb]
  · intro h
    simp [renderPixel, h, escapedPixel]

/-- Witness for C2: the single pixel of `reqB` is interior and painted as the
transparent background; the pixel `(0,0)` of `reqA` escapes and is opaque. -/
theorem interior_and_escaped_alpha_witness :
    renderPixel testOps reqB 0 0 = [7, 8, 9, 0] ∧
    (renderPixel testOps reqA 0 0).getD 3 0 = 255 := by
  constructor
  · have h := (interior_and_escaped_alpha testOps reqB 0 0 (by decide) (by decide)
      (by decide)).1
    have hesc : (escapeTime (variantStep testOps reqB.fractal_type (reqB.c_re, reqB.c_im))
        reqB.max_iter (mapPixel testOps reqB 0 0)).escaped = false := by
      norm_num [escapeTime, escapeAux, variantStep, mapPixel, magSq, cmul, cadd, csq,
        effectiveZoom, testOps, reqB, MIN_ZOOM]
    simpa [reqB] using h hesc
  · have h := (interior_and_escaped_alpha testOps reqA 0 0 (by decide) (by decide)
      (by decide)).2
    apply h
    norm_num [escapeTime, escapeAux, variantStep, mapPixel, magSq, cmul, cadd, csq,
      effectiveZoom, testOps, reqA, MIN_ZOOM]

theorem escapeAux_iterations_le (step : ℚ × ℚ → ℚ × ℚ) :
    ∀ (fuel : ℕ) (z : ℚ × ℚ) (done : ℕ),
      (escapeAux step fuel z done).iterationsCompleted ≤ done + fuel := by
  intro fuel
  induction fuel with
  | zero => intro z done; simp [escapeAux]
  | succ n ih =>
    intro z done
    unfold escapeAux
    dsimp only
    split
    · simp only
      omega
    · have h := ih (step z) (done + 1)
      omega

theorem escapeAux_escaped_iff (step : ℚ × ℚ → ℚ × ℚ) :
    ∀ (fuel : ℕ) (z : ℚ × ℚ) (done : ℕ),
      ((escapeAux step fuel z done).escaped = true ↔
        ∃ k, 1 ≤ k ∧ k ≤ fuel ∧ 4 < magSq (step^[k] z)) := by
  intro fuel
  induction fuel with
  | zero =>
    intro z done
    simp only [escapeAux]
    constructor
    · intro h
      exact absurd h (by simp)
    · rintro ⟨k, hk1, hk0, _⟩
      omega
  | succ n ih =>
    intro z done
    unfold escapeAux
    dsimp only
    split
    · rename_i hgt
      simp only [true_iff]
      exact ⟨1, le_refl 1, by omega, by simpa [Function.iterate_one] using hgt⟩
    · rename_i hle
      rw [ih (step z) (done + 1)]
      constructor
      · rintro ⟨k, hk1, hkn, hk4⟩
        refine ⟨k + 1, by omega, by omega, ?_⟩
        rwa [Function.iterate_succ_apply]
      · rintro ⟨k, hk1, hkn, hk4⟩
        cases k with
        | zero => omega
        | succ m =>
          cases m with
          | zero =>
            exfalso
            rw [Function.iterate_one] at hk4
            exact hle hk4
          | succ p =>
            refine ⟨p + 1, by omega, by omega, ?_⟩
            rw [← Function.iterate_succ_apply]
            exact hk4

/-- C3: for every sample, constant, variant and `max_iter ≥ 1`, the
escape-time iterator performs at most `max_iter` update steps, and its result
reports `escaped = true` exactly when the squared magnitude exceeded the
squared escape radius `2 · 2` at one of the first `max_iter` updates. -/
theorem escape_iteration_bounded (ops : FloatOps) (fractal_type : ℤ) (c z0 : ℚ × ℚ)
    (max_iter : ℕ) (hmi : 1 ≤ max_iter) :
    (escapeTime (variantStep ops fractal_type c) max_iter z0).iterationsCompleted ≤ max_iter ∧
    ((escapeTime (variantStep ops fractal_type c) max_iter z0).escaped = true ↔
      ∃ k, 1 ≤ k ∧ k ≤ max_iter ∧
        2 * 2 < magSq ((variantStep ops fractal_type c)^[k] z0)) := by
  constructor
  · have h := escapeAux_iterations_le (variantStep ops fractal_type c) max_iter z0 0
    simpa [escapeTime] using h
  · have h := escapeAux_escaped_iff (variantStep ops fractal_type c) max_iter z0 0
    norm_num [escapeTime] at h ⊢
    exact h

/-- Witness for C3: the iteration-count bound at a concrete variant, constant,
sample and cap. -/
theorem escape_iteration_bounded_witness :
    (escapeTime (variantStep testOps 0 ((10 : ℚ), (0 : ℚ))) 2 (0, 0)).iterationsCompleted ≤ 2 :=
  (escape_iteration_bounded testOps 0 (10, 0) (0, 0) 2 (by decide)).1

/-- C4: `render` is deterministic — two requests that agree on every argument
value produce identical output. -/
theorem render_deterministic (ops : FloatOps) (r1 r2 : RenderRequest)
    (h1 : r1.width = r2.width) (h2 : r1.height = r2.height) (h3 : r1.c_re = r2.c_re)
    (h4 : r1.c_im = r2.c_im) (h5 : r1.zoom = r2.zoom) (h6 : r1.x_off = r2.x_off)
    (h7 : r1.y_off = r2.y_off) (h8 : r1.rotation_deg = r2.rotation_deg)
    (h9 : r1.max_iter = r2.max_iter) (h10 : r1.fractal_type = r2.fractal_type)
    (h11 : r1.colors_flat = r2.colors_flat) (h12 : r1.bg_r = r2.bg_r)
    (h13 : r1.bg_g = r2.bg_g) (h14 : r1.bg_b = r2.bg_b)
    (h15 : r1.fade_black = r2.fade_black) (h16 : r1.alpha_gamma = r2.alpha_gamma)
    (h17 : r1.transparent = r2.transparent) :
    render ops r1 = render ops r2 := by
  have heq : r1 = r2 := by
    cases r1
    cases r2
    simp_all
  rw [heq]

/-- A second request literal with the same argument values as `reqA`. -/
def reqACopy : RenderRequest :=
  { width := 2, height := 1, c_re := 10, c_im := 0, zoom := 1, x_off := 0,
    y_off := 0, rotation_deg := 0, max_iter := 2, fractal_type := 0,
    colors_flat := gradC, bg_r := 7, bg_g := 8, bg_b := 9, fade_black := 0,
    alpha_gamma := 1, transparent := false }

/-- Witness for C4: two independently constructed requests with identical
argument values render identically. -/
theorem render_deterministic_witness : render testOps reqA = render testOps reqACopy :=
  render_deterministic testOps reqA reqACopy rfl rfl rfl rfl rfl rfl rfl rfl rfl rfl
    rfl rfl rfl rfl rfl rfl rfl

theorem sampleChannel_segment (colors : List ℕ) (ch i : ℕ) (t : ℚ)
    (hi : i < 4) (hlo : (i : ℚ) / 4 ≤ t) (hhi : t ≤ ((i : ℚ) + 1) / 4) :
    sampleChannel colors t ch =
      ((colors.getD (i * 3 + ch) 0 : ℕ) : ℚ) +
        (((colors.getD ((i + 1) * 3 + ch) 0 : ℕ) : ℚ) -
          ((colors.getD (i * 3 + ch) 0 : ℕ) : ℚ)) * (t * 4 - (i : ℚ)) := by
  have hi3 : (i : ℚ) ≤ 3 := by exact_mod_cast Nat.lt_succ_iff.mp hi
  have ht0 : 0 ≤ t := le_trans (by positivity) hlo
  have ht1 : t ≤ 1 := le_trans hhi (by linarith)
  have hcl : clamp01 t = t := by
    unfold clamp01
    rw [max_eq_left ht0, min_eq_left ht1]
  have hpos_lo : (i : ℚ) ≤ t * 4 := by linarith
  have hpos_hi : t * 4 ≤ (i : ℚ) + 1 := by linarith
  rcases lt_or_eq_of_le hpos_hi with hlt | heq
  · have hfloor : ⌊t * 4⌋ = (i : ℤ) := by
      rw [Int.floor_eq_iff]
      constructor
      · exact_mod_cast hpos_lo
      · push_cast
        exact hlt
    simp only [sampleChannel, hcl, hfloor, Int.toNat_natCast, Nat.min_eq_left
      (Nat.lt_succ_iff.mp hi)]
  · have ht : t = ((i : ℚ) + 1) / 4 := by linarith
    subst ht
    have h4 : ((i : ℚ) + 1) / 4 * 4 = (((i + 1 : ℕ)) : ℚ) := by push_cast; ring
    have hfloor : ⌊((i : ℚ) + 1) / 4 * 4⌋ = ((i + 1 : ℕ) : ℤ) := by
      rw [h4]
      exact Int.floor_natCast (i + 1)
    rcases Nat.lt_or_ge i 3 with hi2 | hi3n
    · have hmin : min (i + 1) 3 = i + 1 := Nat.min_eq_left (by omega)
      simp only [sampleChannel, hcl, hfloor, Int.toNat_natCast, hmin]
      push_cast
      ring
    · have hieq : i = 3 := by omega
      subst hieq
      have hfl2 : ⌊(((3 : ℕ) : ℚ) + 1) / 4 * 4⌋ = ((4 : ℕ) : ℤ) := by
        push_cast
        norm_num
      simp only [sampleChannel, hcl, hfl2, Int.toNat_natCast]
      norm_num

/-- C5: gradient sampling is piecewise linear over the 4 segments of the 5
stops — on segment `i` (spanning `t ∈ [i/4, (i+1)/4]`) each channel equals the
linear interpolation between stops `i` and `i+1` — and at every boundary value
`t ∈ {0, 1/4, 1/2, 3/4, 1}` the sampled channel equals the corresponding stop
exactly. -/
theorem gradient_piecewise_linear_and_boundaries (colors : List ℕ) (ch : ℕ) :
    (∀ (i : ℕ) (t : ℚ), i < 4 → (i : ℚ) / 4 ≤ t → t ≤ ((i : ℚ) + 1) / 4 →
      sampleChannel colors t ch =
        ((colors.getD (i * 3 + ch) 0 : ℕ) : ℚ) +
          (((colors.getD ((i + 1) * 3 + ch) 0 : ℕ) : ℚ) -
            ((colors.getD (i * 3 + ch) 0 : ℕ) : ℚ)) * (t * 4 - (i : ℚ))) ∧
    (∀ i : ℕ, i ≤ 4 → sampleChannel colors ((i : ℚ) / 4) ch =
      ((colors.getD (i * 3 + ch) 0 : ℕ) : ℚ)) := by
  constructor
  · intro i t hi hlo hhi
    exact sampleChannel_segment colors ch i t hi hlo hhi
  · intro i hi
    rcases Nat.lt_or_ge i 4 with hi4 | hi4
    · have h := sampleChannel_segment colors ch i ((i : ℚ) / 4) hi4 (le_refl _)
        (by linarith)
      rw [h]
      ring
    · have hieq : i = 4 := by omega
      subst hieq
      have h := sampleChannel_segment colors ch 3 (((4 : ℕ) : ℚ) / 4) (by omega)
        (by push_cast; norm_num) (by push_cast; norm_num)
      rw [h]
      push_cast
      ring_nf

/-- Witness for C5: the boundary `t = 2/4` hits gradient stop 2 exactly, and a
point inside segment 1 is interpolated linearly between stops 1 and 2. -/
theorem gradient_piecewise_linear_and_boundaries_witness :
    sampleChannel gradC (((2 : ℕ) : ℚ) / 4) 0 = ((gradC.getD (2 * 3 + 0) 0 : ℕ) : ℚ) ∧
    sampleChannel gradC (1 / 3) 0 =
      ((gradC.getD (1 * 3 + 0) 0 : ℕ) : ℚ) +
        (((gradC.getD ((1 + 1) * 3 + 0) 0 : ℕ) : ℚ) - ((gradC.getD (1 * 3 + 0) 0 : ℕ) : ℚ)) *
          ((1 / 3 : ℚ) * 4 - ((1 : ℕ) : ℚ)) :=
  ⟨(gradient_piecewise_linear_and_boundaries gradC 0).2 2 (by decide),
   (gradient_piecewise_linear_and_boundaries gradC 0).1 1 (1 / 3) (by decide)
     (by norm_num) (by norm_num)⟩

/-- C6: the gamma stage raises each normalized channel to the power
`1 / alpha_gamma`; for any implementation of `powf` with `powf v 1 = v` (true
of the real power function) and any request with `alpha_gamma = 1`, the output
is byte-identical to the pipeline with the gamma stage omitted. -/
theorem gamma_one_is_noop (ops : FloatOps) (req : RenderRequest)
    (hpow : ∀ v : ℚ, ops.powf v 1 = v) (hγ : req.alpha_gamma = 1) :
    render ops req = renderNoGamma ops req := by
  have hchan : ∀ v : ℚ, gammaChannel ops req v = v := by
    intro v
    unfold gammaChannel
    rw [hγ]
    norm_num [hpow]
  have hpix : ∀ x y : ℕ, renderPixel ops req x y = renderPixelNoGamma ops req x y := by
    intro x y
    unfold renderPixel renderPixelNoGamma
    simp only [escapedPixel, escapedPixelNoGamma, hchan]
  unfold render renderNoGamma
  simp only [hpix]

/-- Witness for C6: the concrete request `reqA` (which has `alpha_gamma = 1`)
renders identically with and without the gamma stage. -/
theorem gamma_one_is_noop_witness : render testOps reqA = renderNoGamma testOps reqA :=
  gamma_one_is_noop testOps reqA (fun _ => rfl) rfl

/-- C7: a request with `zoom ≤ 0` (and otherwise valid fields) does not fail:
a full buffer is returned, identical to the one produced by the same request
with the zoom replaced by the minimum positive value `MIN_ZOOM`. -/
theorem degenerate_zoom_clamped (ops : FloatOps) (req : RenderRequest)
    (hz : req.zoom ≤ 0) (hw : 0 < req.width) (hh : 0 < req.height)
    (hc : req.colors_flat.length = 15) (hv0 : 0 ≤ req.fractal_type)
    (hv4 : req.fractal_type ≤ 4) :
    render ops req ≠ none ∧
    render ops req = render ops { req with zoom := MIN_ZOOM } := by
  have hmz : ¬ MIN_ZOOM ≤ 0 := by norm_num [MIN_ZOOM]
  have hmap : ∀ x y : ℕ, mapPixel ops { req with zoom := MIN_ZOOM } x y = mapPixel ops req x y := by
    intro x y
    unfold mapPixel effectiveZoom
    simp only [if_pos hz, if_neg hmz]
  have hpix : ∀ x y : ℕ,
      renderPixel ops { req with zoom := MIN_ZOOM } x y = renderPixel ops req x y := by
    intro x y
    unfold renderPixel
    rw [hmap x y]
    rfl
  constructor
  · unfold render
    split_ifs with h1 h2 h3
    · exfalso; rcases h1 with h | h <;> omega
    · exact absurd hc h2
    · exfalso; rcases h3 with h | h <;> omega
    · simp
  · unfold render
    simp only [hpix]

/-- A request with degenerate zoom and otherwise valid fields. -/
def reqZ : RenderRequest :=
  { width := 2, height := 1, c_re := 10, c_im := 0, zoom := -5, x_off := 0,
    y_off := 0, rotation_deg := 0, max_iter := 2, fractal_type := 0,
    colors_flat := gradC, bg_r := 7, bg_g := 8, bg_b := 9, fade_black := 0,
    alpha_gamma := 1, transparent := false }

/-- Witness for C7: a concrete request with `zoom = -5` still renders, and
renders exactly as with the minimum positive zoom. -/
theorem degenerate_zoom_clamped_witness :
    render testOps reqZ ≠ none ∧
    render testOps reqZ = render testOps { reqZ with zoom := MIN_ZOOM } :=
  degenerate_zoom_clamped testOps reqZ (by decide) (by decide) (by decide) (by decide)
    (by decide) (by decide)

/-- C8: a request with non-positive width or height, a gradient whose flat
length is not 15 bytes, or a variant selector outside 0..4 fails before any
per-pixel work: `render` returns no buffer at all. -/
theorem render_fails_fast_on_invalid (ops : FloatOps) (req : RenderRequest)
    (h : req.width ≤ 0 ∨ req.height ≤ 0 ∨ req.colors_flat.length ≠ 15 ∨
      req.fractal_type < 0 ∨ 4 < req.fractal_type) :
    render ops req = none := by
  unfold render
  split_ifs with h1 h2 h3
  · rfl
  · rfl
  · rfl
  · exfalso
    rcases h with h | h | h | h | h
    · exact h1 (Or.inl h)
    · exact h1 (Or.inr h)
    · exact h2 h
    · exact h3 (Or.inl h)
    · exact h3 (Or.inr h)

/-- A request with an invalid width and otherwise valid fields. -/
def reqW : RenderRequest :=
  { width := 0, height := 1, c_re := 10, c_im := 0, zoom := 1, x_off := 0,
    y_off := 0, rotation_deg := 0, max_iter := 2, fractal_type := 0,
    colors_flat := gradC, bg_r := 7, bg_g := 8, bg_b := 9, fade_black := 0,
    alpha_gamma := 1, transparent := false }

/-- Witness for C8: a concrete zero-width request yields no buffer. -/
theorem render_fails_fast_on_invalid_witness : render testOps reqW = none :=
  render_fails_fast_on_invalid testOps reqW (Or.inl (by decide))

theorem triggerRender_queued_noop (s : ShellState) (h : s.renderQueued = true) :
    triggerRender s = s := by
  unfold triggerRender
  rcases hb : s.wasmLoaded <;> simp [hb, h]

theorem runEvents_triggers_noop (rest : List ShellEvent) :
    ∀ (n : ℕ) (s : ShellState), s.renderQueued = true →
      runEvents s (List.replicate n .trigger ++ rest) = runEvents s rest := by
  intro n
  induction n with
  | zero => intro s _; simp
  | succ m ih =>
    intro s h
    simp only [List.replicate_succ, List.cons_append, runEvents]
    rw [show shellStep s ShellEvent.trigger = (triggerRender s, false) from rfl,
      triggerRender_queued_noop s h]
    simpa using ih s h

/-- C9: the shell never invokes the kernel while a render is in progress (a
step only starts a render from a state with `isRendering = false`); a trigger
arriving during an in-flight render is deferred — it queues the render and
schedules an animation frame without invoking the kernel; and any burst of
`n + 1` triggers from an idle state followed by one animation frame produces
exactly one kernel invocation. -/
theorem shell_serializes_and_coalesces :
    (∀ (s : ShellState) (e : ShellEvent), (shellStep s e).2 = true → s.isRendering = false) ∧
    (∀ s : ShellState, s.wasmLoaded = true → s.isRendering = true → s.renderQueued = false →
      shellStep s .trigger =
        ({ s with renderQueued := true, rafScheduled := true }, false)) ∧
    (∀ (s : ShellState) (n : ℕ), s.wasmLoaded = true → s.isRendering = false →
      s.renderQueued = false →
      (runEvents s (List.replicate (n + 1) .trigger ++ [.frame])).2 = 1) := by
  refine ⟨?_, ?_, ?_⟩
  · intro s e h
    cases e with
    | trigger => exact absurd h (by simp [shellStep])
    | frame =>
      by_contra hr
      rw [Bool.not_eq_false] at hr
      unfold shellStep at h
      rcases hraf : s.rafScheduled <;> simp [hraf, hr] at h
    | finish => exact absurd h (by simp [shellStep])
  · intro s hw hr hq
    unfold shellStep triggerRender
    simp [hw, hq]
  · intro s n hw hr hq
    simp only [List.replicate_succ, List.cons_append, runEvents]
    rw [show shellStep s ShellEvent.trigger = (triggerRender s, false) from rfl]
    have ht : triggerRender s = { s with renderQueued := true, rafScheduled := true } := by
      unfold triggerRender
      simp [hw, hq]
    rw [ht]
    simp only [List.append_eq]
    rw [runEvents_triggers_noop [ShellEvent.frame] n
      { s with renderQueued := true, rafScheduled := true } rfl]
    simp only [runEvents, shellStep]
    simp [hr]

/-- Witness for C9: the three guarantees at concrete scheduler states. -/
theorem shell_serializes_and_coalesces_witness :
    (⟨true, true, false, true⟩ : ShellState).isRendering = false ∧
    shellStep ⟨true, false, true, false⟩ .trigger =
      ({ (⟨true, false, true, false⟩ : ShellState) with
          renderQueued := true, rafScheduled := true }, false) ∧
    (runEvents ⟨true, false, false, false⟩
      (List.replicate 3 .trigger ++ [.frame])).2 = 1 :=
  ⟨shell_serializes_and_coalesces.1 ⟨true, true, false, true⟩ .frame (by decide),
   shell_serializes_and_coalesces.2.1 ⟨true, false, true, false⟩ rfl rfl rfl,
   shell_serializes_and_coalesces.2.2 ⟨true, false, false, false⟩ 2 rfl rfl rfl⟩

theorem writeStop_length (arr : List ℕ) (i hx : ℕ) :
    (writeStop arr i hx).length = arr.length := by
  unfold writeStop
  simp [List.length_set]

theorem foldl_writeStop_length (l : List (ℕ × ℕ)) :
    ∀ arr : List ℕ,
      (l.foldl (fun a p => writeStop a p.1 p.2) arr).length = arr.length := by
  induction l with
  | nil => intro arr; rfl
  | cons p l ih =>
    intro arr
    simp only [List.foldl_cons]
    rw [ih (writeStop arr p.1 p.2), writeStop_length]

theorem flattenColors_length (colors : List ℕ) : (flattenColors colors).length = 15 := by
  unfold flattenColors
  rw [foldl_writeStop_length]
  rfl

/-- C10: every kernel call the shell issues fixes the gamma argument at 1.0
and a hard-coded iteration cap (120 for preview, 300 for export), independent
of every user-adjustable state field, and flattens the 5 hex color stops into
exactly 15 gradient bytes — so the kernel preconditions `max_iter ≥ 1` and a
15-byte gradient hold on every call the shell makes. -/
theorem shell_requests_fix_gamma_and_iterations (st : AppState) (w h : ℤ) :
    (previewRequest st w h).alpha_gamma = 1 ∧
    (previewRequest st w h).max_iter = 120 ∧
    (exportRequest st w h).alpha_gamma = 1 ∧
    (exportRequest st w h).max_iter = 300 ∧
    (previewRequest st w h).colors_flat.length = 15 ∧
    (exportRequest st w h).colors_flat.length = 15 ∧
    1 ≤ (previewRequest st w h).max_iter ∧
    1 ≤ (exportRequest st w h).max_iter :=
  ⟨rfl, rfl, rfl, rfl, flattenColors_length st.colors, flattenColors_length st.colors,
   by simp [previewRequest], by simp [exportRequest]⟩
